import Mathlib

/-!
Verification development for the ComfyUI websocket example client
(`app/assets/python/comfyui.py`).

The Python program is embedded shallowly:
* JSON values (the results of `json.loads` and the workflow graph) are the
  inductive `JVal`; Python dicts are association lists in insertion order
  (keys are unique in a real dict; theorems that depend on this carry an
  explicit hypothesis).
* Python exceptions (`KeyError` on a missing dict key, `TypeError` on
  subscripting or `in`-testing an unsupported value) are modelled with
  `Except String`.
* The websocket read loop of `get_images` is modelled as a recursion over a
  finite list of received frames; `RunOut.finished` is the loop breaking and
  the function returning, `RunOut.pending` is the loop still blocked on the
  next `ws.recv()` after the given frames.
* Network interaction is abstracted: the `prompt_id` of the queued job (the
  string the server returns from `POST /prompt`) is a parameter, and binary
  frames carry their byte payload as `List Nat`.
* `uuid` filenames and `print` side effects are abstracted: `save_images`
  returns the list of file contents written (one per created file), and
  `update_node_value` returns the log lines it prints as `LogMsg` values.
-/

namespace Comfy

/-- A JSON value, as produced by `json.loads`. Objects are association
lists in insertion order, mirroring Python dicts. -/
inductive JVal where
  | null
  | b (x : Bool)
  | i (x : Int)
  | s (x : String)
  | arr (xs : List JVal)
  | obj (fields : List (String × JVal))

/-- First value stored under a key, mirroring Python dict lookup
(keys of a real dict are unique). -/
def lookupKey : List (String × JVal) → String → Option JVal
  | [], _ => none
  | (k, v) :: rest, key => if k == key then some v else lookupKey rest key

/-- Python `==` between a JSON value and a Python `str`: true exactly for
the equal string (numbers, booleans, `None`, lists and dicts never compare
equal to a string). -/
def pyEqStr (v : JVal) (t : String) : Bool :=
  match v with
  | .s u => u == t
  | _ => false

/-- Python `x is None` / `x == None` for a JSON value. -/
def isNull : JVal → Bool
  | .null => true
  | _ => false

/-- Python `==` between the current node value and `output_node_id`
(a node-id string, or `None` when no output node was found). -/
def pyEqOpt (v : JVal) : Option String → Bool
  | some t => pyEqStr v t
  | none => isNull v

/-- Python `==` on the scalar JSON values that can appear as dict keys in
this program (strings and `None`; also numbers/booleans, where Python
equates `True` with `1` and `False` with `0`). Composite values are never
used as keys here, so they compare unequal. -/
def jEqAtom : JVal → JVal → Bool
  | .null, .null => true
  | .s a, .s c => a == c
  | .b a, .b c => a == c
  | .i a, .i c => a == c
  | .b a, .i n => (if a then (1 : Int) else 0) == n
  | .i n, .b a => n == (if a then (1 : Int) else 0)
  | _, _ => false

/-- Python truthiness of a JSON value (`if node_data`). -/
def truthy : JVal → Bool
  | .null => false
  | .b x => x
  | .i n => n != 0
  | .s t => !t.isEmpty
  | .arr xs => !xs.isEmpty
  | .obj fs => !fs.isEmpty

/-- Python `k in v` for a string `k`: key test on a dict, substring test on
a string, membership (by `==`) on a list; `TypeError` otherwise. -/
def pyIn (k : String) (v : JVal) : Except String Bool :=
  match v with
  | .obj fields => .ok (lookupKey fields k).isSome
  | .s t => .ok (decide (List.IsInfix k.data t.data))
  | .arr xs => .ok (xs.any (fun e => jEqAtom e (JVal.s k)))
  | _ => .error "TypeError"

/-- Python `v[k]` for a string key: `KeyError` when the key is missing,
`TypeError` when `v` is not a dict. -/
def getItem (v : JVal) (k : String) : Except String JVal :=
  match v with
  | .obj fields =>
    match lookupKey fields k with
    | some x => .ok x
    | none => .error "KeyError"
  | _ => .error "TypeError"

/-- `OUTPUT_NODE_WORKFLOW_TYPE = "SaveImageWebsocket"`. -/
def OUTPUT_NODE_WORKFLOW_TYPE : String := "SaveImageWebsocket"

/-- `find_output_node_id`: first node id whose node data is a dict with a
`class_type` equal to `OUTPUT_NODE_WORKFLOW_TYPE`; `None` when absent. -/
def find_output_node_id : List (String × JVal) → Option String
  | [] => none
  | (nid, nd) :: rest =>
    match nd with
    | .obj fields =>
      match lookupKey fields "class_type" with
      | some ct =>
        if pyEqStr ct OUTPUT_NODE_WORKFLOW_TYPE then some nid
        else find_output_node_id rest
      | none => find_output_node_id rest
    | _ => find_output_node_id rest

/-- One received websocket frame: a text frame carrying its decoded JSON
(`json.loads` of the received string), or a binary frame carrying bytes. -/
inductive Frame where
  | text (msg : JVal)
  | bin (payload : List Nat)

/-- What one text frame does to the loop. -/
inductive TextAction where
  | brk
  | setNode (n : JVal)
  | skip

/-- The text-frame branch of the read loop of `get_images`:
`message['type'] == 'executing'`, then `data = message['data']`,
`data['prompt_id'] == prompt_id`, and `data['node'] is None` breaks while a
non-null node becomes the current node. -/
def textStep (pid : String) (msg : JVal) : Except String TextAction :=
  match getItem msg "type" with
  | .error e => .error e
  | .ok ty =>
    if pyEqStr ty "executing" then
      match getItem msg "data" with
      | .error e => .error e
      | .ok data =>
        match getItem data "prompt_id" with
        | .error e => .error e
        | .ok dpid =>
          if pyEqStr dpid pid then
            match getItem data "node" with
            | .error e => .error e
            | .ok node =>
              if isNull node then .ok TextAction.brk
              else .ok (TextAction.setNode node)
          else .ok TextAction.skip
    else .ok TextAction.skip

/-- `if current_node not in output_images: output_images[current_node] = []`
followed by `output_images[current_node].append(v)`, on a dict keyed by
JSON scalars compared with Python `==`: append `v` to the sequence of the
(unique) entry equal to the key, or add a new `k ↦ [v]` entry at the end
(Python insertion order). -/
def dictAppend : List (JVal × List (List Nat)) → JVal → List Nat →
    List (JVal × List (List Nat))
  | [], k, v => [(k, [v])]
  | (k0, vs) :: rest, k, v =>
    if jEqAtom k0 k then (k0, vs ++ [v]) :: rest
    else (k0, vs) :: dictAppend rest k v

/-- Python dict lookup on the collected image mapping. -/
def lookupImg : List (JVal × List (List Nat)) → JVal → Option (List (List Nat))
  | [], _ => none
  | (k, v) :: rest, key => if jEqAtom k key then some v else lookupImg rest key

/-- The loop state of `get_images`: `current_node` and `output_images`. -/
structure LoopState where
  current_node : JVal
  output_images : List (JVal × List (List Nat))

/-- Outcome of processing a finite prefix of the frame stream: the loop
broke and `get_images` returned the mapping, or the loop is still blocked
on the next `ws.recv()`. -/
inductive RunOut where
  | finished (images : List (JVal × List (List Nat)))
  | pending (st : LoopState)

/-- The `while True` read loop of `get_images` over a finite list of
received frames. A binary frame is kept only when
`current_node == output_node_id`, and then `out[8:]` is appended. -/
def run (pid : String) (oid : Option String) :
    List Frame → LoopState → Except String RunOut
  | [], st => .ok (RunOut.pending st)
  | Frame.text m :: rest, st =>
    match textStep pid m with
    | .error e => .error e
    | .ok TextAction.brk => .ok (RunOut.finished st.output_images)
    | .ok (TextAction.setNode n) =>
      run pid oid rest { st with current_node := n }
    | .ok TextAction.skip => run pid oid rest st
  | Frame.bin payload :: rest, st =>
    if pyEqOpt st.current_node oid then
      run pid oid rest
        { st with
          output_images :=
            dictAppend st.output_images st.current_node (payload.drop 8) }
    else run pid oid rest st

/-- The initial loop state: `current_node = ""` and `output_images = {}`. -/
def initState : LoopState := { current_node := JVal.s "", output_images := [] }

/-- `get_images` on a finite received-frame stream. `pid` is the
`prompt_id` string returned by `queue_prompt`; the output node id is
resolved from the graph before the loop. -/
def get_images (pid : String) (prompt : List (String × JVal))
    (frames : List Frame) : Except String RunOut :=
  run pid (find_output_node_id prompt) frames initState

/-- First blob of a collected sequence (`image[0]`); total helper used to
state what `save_images` writes. -/
def firstImage : List (List Nat) → List Nat
  | [] => []
  | x :: _ => x

/-- `save_images`: one file per entry of the mapping, whose content is
`image[0]`; an empty sequence raises `IndexError`. The random uuid
filenames are abstracted away; the result lists the file contents in
iteration order. -/
def save_images : List (JVal × List (List Nat)) → Except String (List (List Nat))
  | [] => .ok []
  | (_, image) :: rest =>
    match image with
    | [] => .error "IndexError"
    | first :: _ =>
      match save_images rest with
      | .error e => .error e
      | .ok outs => .ok (first :: outs)

/-- The title test of `find_node_by_title` on one node:
`"_meta" in node_data` and then
`"title" in node_data["_meta"] and node_data["_meta"]["title"] == title`. -/
def nodeTitleTest (nd : JVal) (title : String) : Except String Bool :=
  match nd with
  | .obj fields =>
    match lookupKey fields "_meta" with
    | none => .ok false
    | some meta =>
      match pyIn "title" meta with
      | .error e => .error e
      | .ok false => .ok false
      | .ok true =>
        match getItem meta "title" with
        | .error e => .error e
        | .ok tv => .ok (pyEqStr tv title)
  | _ => .ok false

/-- `find_node_by_title`: first node (in insertion order) whose `_meta.title`
equals the requested title; `(None, None)` becomes `none`. -/
def find_node_by_title (title : String) :
    List (String × JVal) → Except String (Option (String × JVal))
  | [] => .ok none
  | (nid, nd) :: rest =>
    match nodeTitleTest nd title with
    | .error e => .error e
    | .ok true => .ok (some (nid, nd))
    | .ok false => find_node_by_title title rest

/-- One log line printed by `update_node_value`. -/
inductive LogMsg where
  | updated (title nid : String) (value : JVal)
  | warnNotFound (title : String)

/-- Python dict assignment `d[k] = v` on an association list with unique
keys: replace the value in place when the key is present (keeping its
position), append a new entry at the end otherwise. -/
def setKey : List (String × JVal) → String → JVal → List (String × JVal)
  | [], k, v => [(k, v)]
  | (k0, v0) :: rest, k, v =>
    if k0 == k then (k0, v) :: rest
    else (k0, v0) :: setKey rest k v

/-- Replace the first entry carrying the given node id. Models the in-place
mutation of the found node object (dict keys are unique, so the first entry
with the found id is the found node). -/
def replaceFirstKey : List (String × JVal) → String → JVal → List (String × JVal)
  | [], _, _ => []
  | (k, v) :: rest, nid, nd =>
    if k == nid then (k, nd) :: rest
    else (k, v) :: replaceFirstKey rest nid nd

/-- `update_node_value`: find the node by `_meta.title`; if
`node_data and "inputs" in node_data`, set `node_data["inputs"]["value"]`
and return `True`, else print the warning and return `False`. The returned
triple is (result, printed log lines, graph after the call). -/
def update_node_value (prompt : List (String × JVal)) (title : String)
    (value : JVal) :
    Except String (Bool × List LogMsg × List (String × JVal)) :=
  match find_node_by_title title prompt with
  | .error e => .error e
  | .ok none => .ok (false, [LogMsg.warnNotFound title], prompt)
  | .ok (some (nid, nd)) =>
    if truthy nd then
      match pyIn "inputs" nd with
      | .error e => .error e
      | .ok false => .ok (false, [LogMsg.warnNotFound title], prompt)
      | .ok true =>
        match nd with
        | JVal.obj fields =>
          match lookupKey fields "inputs" with
          | some (JVal.obj iv) =>
            .ok (true, [LogMsg.updated title nid value],
              replaceFirstKey prompt nid
                (JVal.obj (setKey fields "inputs"
                  (JVal.obj (setKey iv "value" value)))))
          | _ => .error "TypeError"
        | _ => .error "TypeError"
    else .ok (false, [LogMsg.warnNotFound title], prompt)

/-- Modelled from the spec: the aspect-ratio computation is not present in
this source file (here the ratio selector string is only forwarded to the
"Ratio" node of the workflow); per the spec, LANDSCAPE scales the height to
floor(H * 9/16) keeping the width, PORTRAIT scales the width to
floor(W * 9/16) keeping the height, and SQUARE or any unrecognized selector
leaves both dimensions unchanged. -/
def apply_image_ratio (ratio : String) (width height : Nat) : Nat × Nat :=
  if ratio = "LANDSCAPE" then (width, height * 9 / 16)
  else if ratio = "PORTRAIT" then (width * 9 / 16, height)
  else (width, height)

/-- Spec-side: does a node have the requested `_meta.title`? -/
def hasTitle (nd : JVal) (title : String) : Bool :=
  match nd with
  | .obj fields =>
    match lookupKey fields "_meta" with
    | some (JVal.obj m) =>
      match lookupKey m "title" with
      | some v => pyEqStr v title
      | none => false
    | _ => false
  | _ => false

/-- Spec-side: the node conforms to the data model as far as `_meta` is
concerned (`_meta`, when present, is an object), so the title scan cannot
raise on it. -/
def metaSafe : JVal → Bool
  | .obj fields =>
    match lookupKey fields "_meta" with
    | some (JVal.obj _) => true
    | some _ => false
    | none => true
  | _ => true

/-- Spec-side: is a node the websocket output node
(`class_type == "SaveImageWebsocket"`)? -/
def isOutputNode (nd : JVal) : Bool :=
  match nd with
  | .obj fields =>
    match lookupKey fields "class_type" with
    | some ct => pyEqStr ct OUTPUT_NODE_WORKFLOW_TYPE
    | none => false
  | _ => false

/-- Spec-side: the node most recently set as current by a text event of the
matching job (an `executing` event for `pid` with a non-null node). -/
def lastSetNode (pid : String) : List Frame → Option JVal
  | [] => none
  | Frame.text m :: rest =>
    (match lastSetNode pid rest with
     | some n => some n
     | none =>
       match textStep pid m with
       | .ok (TextAction.setNode n) => some n
       | _ => none)
  | Frame.bin _ :: rest => lastSetNode pid rest

/-- The values of the collected mapping are all non-empty lists. -/
def imagesNonEmpty (m : List (JVal × List (List Nat))) : Bool :=
  m.all (fun p => !p.2.isEmpty)

/-- Every value of the collected mapping is non-empty, whether the loop has
returned or is still reading. -/
def nonEmptyOut : RunOut → Prop
  | RunOut.finished imgs => imagesNonEmpty imgs = true
  | RunOut.pending st' => imagesNonEmpty st'.output_images = true

/-- The collected mapping is empty (and, while still reading, the current
node is not `None`). -/
def emptyOut : RunOut → Prop
  | RunOut.finished imgs => imgs = []
  | RunOut.pending st' =>
      isNull st'.current_node = false ∧ st'.output_images = []

/-! ## Concrete instances (graphs, events, frames) used as test vectors -/

/-- An `executing` event of job `"p"` naming node `"9"`. -/
def exMsgSet : JVal :=
  JVal.obj [("type", JVal.s "executing"),
    ("data", JVal.obj [("prompt_id", JVal.s "p"), ("node", JVal.s "9")])]

/-- The completion event of job `"p"` (`node` is `null`). -/
def exMsgBrk : JVal :=
  JVal.obj [("type", JVal.s "executing"),
    ("data", JVal.obj [("prompt_id", JVal.s "p"), ("node", JVal.null)])]

/-- An `executing` event of a different job `"q"`. -/
def exMsgOther : JVal :=
  JVal.obj [("type", JVal.s "executing"),
    ("data", JVal.obj [("prompt_id", JVal.s "q"), ("node", JVal.s "7")])]

/-- A small workflow graph with a sampler node and the websocket output
node (id `"9"`). -/
def exGraph : List (String × JVal) :=
  [("3", JVal.obj [("class_type", JVal.s "KSampler"),
     ("inputs", JVal.obj [("steps", JVal.i 15)])]),
   ("9", JVal.obj [("class_type", JVal.s "SaveImageWebsocket")])]

/-- A workflow graph with no `SaveImageWebsocket` node. -/
def exGraphNoOutput : List (String × JVal) :=
  [("3", JVal.obj [("class_type", JVal.s "KSampler")])]

/-- Fields of a node titled `"Seed"` carrying an `inputs` mapping. -/
def seedFields : List (String × JVal) :=
  [("_meta", JVal.obj [("title", JVal.s "Seed")]),
   ("inputs", JVal.obj [("value", JVal.i 0)])]

/-- Fields of a node titled `"Seed"` with no `inputs` field. -/
def seedNodeNoInputsFields : List (String × JVal) :=
  [("_meta", JVal.obj [("title", JVal.s "Seed")])]

/-- A node titled `"Seed"` with no `inputs` field. -/
def seedNodeNoInputs : JVal := JVal.obj seedNodeNoInputsFields

/-- Fields of a node titled `"Seed"` with an (empty) `inputs` mapping. -/
def seedNodeEmptyInputsFields : List (String × JVal) :=
  [("_meta", JVal.obj [("title", JVal.s "Seed")]),
   ("inputs", JVal.obj [])]

/-- A node titled `"Seed"` with an (empty) `inputs` mapping. -/
def seedNodeEmptyInputs : JVal := JVal.obj seedNodeEmptyInputsFields

/-- Two `"Seed"` nodes: the first (found first by the scan) has no
`inputs`, the second has one. -/
def gShadowA : List (String × JVal) :=
  [("1", seedNodeNoInputs), ("2", seedNodeEmptyInputs)]

/-- Two `"Seed"` nodes: the first has an `inputs` mapping, the second has
none. -/
def gShadowB : List (String × JVal) :=
  [("1", seedNodeEmptyInputs), ("2", seedNodeNoInputs)]

/-- A workflow graph whose `SaveImageWebsocket` node has the empty string
as its node id, so the resolved output id collides with the loop's initial
`current_node = ""` sentinel. -/
def gEmptyId : List (String × JVal) :=
  [("", JVal.obj [("class_type", JVal.s "SaveImageWebsocket")])]

/-! ## Helper lemmas about the read loop -/

theorem run_append (pid : String) (oid : Option String) (fs gs : List Frame)
    (st : LoopState) :
    run pid oid (fs ++ gs) st =
      match run pid oid fs st with
      | .ok (RunOut.pending st') => run pid oid gs st'
      | r => r := by
  induction fs generalizing st with
  | nil => simp [run]
  | cons f rest ih =>
    cases f with
    | text m =>
      simp only [List.cons_append, run]
      cases h : textStep pid m with
      | error e => rfl
      | ok a => cases a <;> simp [ih]
    | bin payload =>
      simp only [List.cons_append, run]
      by_cases h : pyEqOpt st.current_node oid = true <;> simp [h, ih]

theorem run_append_pending (pid : String) (oid : Option String)
    (fs gs : List Frame) (st st' : LoopState)
    (h : run pid oid fs st = .ok (RunOut.pending st')) :
    run pid oid (fs ++ gs) st = run pid oid gs st' := by
  rw [run_append, h]

theorem run_pending_current (pid : String) (oid : Option String)
    (fs : List Frame) (st0 st : LoopState)
    (h : run pid oid fs st0 = .ok (RunOut.pending st)) :
    st.current_node = (lastSetNode pid fs).getD st0.current_node := by
  induction fs generalizing st0 with
  | nil =>
    simp only [run, Except.ok.injEq, RunOut.pending.injEq] at h
    simp [lastSetNode, ← h]
  | cons f rest ih =>
    cases f with
    | text m =>
      simp only [run] at h
      cases ht : textStep pid m with
      | error e => rw [ht] at h; exact absurd h (by simp)
      | ok a =>
        rw [ht] at h
        cases a with
        | brk => exact absurd h (by simp)
        | setNode n =>
          have := ih _ h
          simp only [lastSetNode, ht]
          cases hl : lastSetNode pid rest with
          | none => simpa [hl] using this
          | some n' => simpa [hl] using this
        | skip =>
          have := ih _ h
          simp only [lastSetNode, ht]
          cases hl : lastSetNode pid rest with
          | none => simpa [hl] using this
          | some n' => simpa [hl] using this
    | bin payload =>
      simp only [run] at h
      by_cases hc : pyEqOpt st0.current_node oid = true
      · rw [if_pos hc] at h
        have := ih _ h
        simpa [lastSetNode] using this
      · rw [if_neg hc] at h
        have := ih _ h
        simpa [lastSetNode] using this

theorem dictAppend_lookup (m : List (JVal × List (List Nat))) (k : JVal)
    (v : List Nat) (hk : jEqAtom k k = true) :
    lookupImg (dictAppend m k v) k =
      some ((lookupImg m k).getD [] ++ [v]) := by
  induction m with
  | nil => simp [dictAppend, lookupImg, hk]
  | cons hd tl ih =>
    cases hd with
    | mk k0 vs =>
      by_cases h0 : jEqAtom k0 k = true
      · simp [dictAppend, lookupImg, h0]
      · simp [dictAppend, lookupImg, h0, ih]

theorem jEqAtom_refl_of_pyEqOpt (v : JVal) (oid : Option String)
    (h : pyEqOpt v oid = true) : jEqAtom v v = true := by
  cases oid with
  | none => cases v <;> simp_all [pyEqOpt, isNull, jEqAtom]
  | some t => cases v <;> simp_all [pyEqOpt, pyEqStr, jEqAtom]

theorem dictAppend_nonEmpty (m : List (JVal × List (List Nat))) (k : JVal)
    (v : List Nat) (h : imagesNonEmpty m = true) :
    imagesNonEmpty (dictAppend m k v) = true := by
  induction m with
  | nil => simp [dictAppend, imagesNonEmpty]
  | cons hd tl ih =>
    cases hd with
    | mk k0 vs =>
      simp only [imagesNonEmpty, List.all_cons, Bool.and_eq_true] at h
      by_cases h0 : jEqAtom k0 k = true
      · simp [dictAppend, imagesNonEmpty, h0, h.2]
      · simp only [dictAppend, h0, Bool.false_eq_true, if_false]
        have htl : imagesNonEmpty (dictAppend tl k v) = true := ih h.2
        simp only [imagesNonEmpty, List.all_cons, Bool.and_eq_true] at htl ⊢
        exact ⟨h.1, htl⟩

theorem run_imagesNonEmpty (pid : String) (oid : Option String)
    (fs : List Frame) (st : LoopState) (r : RunOut)
    (hst : imagesNonEmpty st.output_images = true)
    (h : run pid oid fs st = .ok r) : nonEmptyOut r := by
  induction fs generalizing st with
  | nil =>
    simp only [run, Except.ok.injEq] at h
    subst h; exact hst
  | cons f rest ih =>
    cases f with
    | text m =>
      simp only [run] at h
      cases ht : textStep pid m with
      | error e => rw [ht] at h; exact absurd h (by simp)
      | ok a =>
        rw [ht] at h
        cases a with
        | brk =>
          simp only [Except.ok.injEq] at h
          subst h; exact hst
        | setNode n => exact ih { st with current_node := n } hst h
        | skip => exact ih st hst h
    | bin payload =>
      simp only [run] at h
      by_cases hc : pyEqOpt st.current_node oid = true
      · rw [if_pos hc] at h
        exact ih
          { st with
            output_images :=
              dictAppend st.output_images st.current_node (payload.drop 8) }
          (dictAppend_nonEmpty _ _ _ hst) h
      · rw [if_neg hc] at h
        exact ih st hst h

theorem save_images_ok (m : List (JVal × List (List Nat)))
    (h : imagesNonEmpty m = true) :
    save_images m = .ok (m.map (fun p => firstImage p.2)) := by
  induction m with
  | nil => rfl
  | cons hd tl ih =>
    unfold imagesNonEmpty at h
    simp only [List.all_cons, Bool.and_eq_true] at h
    cases hd with
    | mk k image =>
      cases image with
      | nil => simp at h
      | cons first rest =>
        simp only [save_images]
        rw [ih h.2]
        rfl

/-- A text frame only sets a non-null current node (`data['node'] is None`
breaks the loop instead). -/
theorem textStep_setNode_not_null (pid : String) (m n : JVal)
    (h : textStep pid m = .ok (TextAction.setNode n)) : isNull n = false := by
  unfold textStep at h
  repeat' split at h
  all_goals simp_all

/-- With no output node resolved (`output_node_id = None`), the current
node is never `None`, so no binary frame is ever kept. -/
theorem run_none_empty (pid : String) (fs : List Frame) (st : LoopState)
    (r : RunOut) (hcur : isNull st.current_node = false)
    (himg : st.output_images = [])
    (h : run pid none fs st = .ok r) : emptyOut r := by
  induction fs generalizing st with
  | nil =>
    simp only [run, Except.ok.injEq] at h
    subst h; exact ⟨hcur, himg⟩
  | cons f rest ih =>
    cases f with
    | text m =>
      simp only [run] at h
      cases ht : textStep pid m with
      | error e => rw [ht] at h; exact absurd h (by simp)
      | ok a =>
        rw [ht] at h
        cases a with
        | brk =>
          simp only [Except.ok.injEq] at h
          subst h; exact himg
        | setNode n =>
          exact ih { st with current_node := n }
            (textStep_setNode_not_null pid m n ht) himg h
        | skip => exact ih st hcur himg h
    | bin payload =>
      simp only [run] at h
      have hne : pyEqOpt st.current_node none = false := by
        simp [pyEqOpt, hcur]
      rw [hne] at h
      simp only [Bool.false_eq_true, if_false] at h
      exact ih st hcur himg h

/-! ## Helper lemmas about the workflow patcher -/

theorem getItem_ok (v : JVal) (k : String) (x : JVal) :
    getItem v k = Except.ok x ↔
      ∃ fields, v = JVal.obj fields ∧ lookupKey fields k = some x := by
  cases v with
  | obj fields =>
    cases hl : lookupKey fields k with
    | none => simp [getItem, hl]
    | some y => simp [getItem, hl]
  | null => simp [getItem]
  | b xb => simp [getItem]
  | i xi => simp [getItem]
  | s xs => simp [getItem]
  | arr xs => simp [getItem]

theorem isNull_iff (v : JVal) : isNull v = true ↔ v = JVal.null := by
  cases v <;> simp [isNull]

theorem setKey_lookup_self (fields : List (String × JVal)) (k : String)
    (v : JVal) : lookupKey (setKey fields k v) k = some v := by
  induction fields with
  | nil => simp [setKey, lookupKey]
  | cons hd tl ih =>
    cases hd with
    | mk k0 v0 =>
      by_cases h0 : (k0 == k) = true
      · simp [setKey, lookupKey, h0]
      · simp [setKey, lookupKey, h0, ih]

theorem setKey_lookup_other (fields : List (String × JVal)) (k : String)
    (v : JVal) (k' : String) (h : k' ≠ k) :
    lookupKey (setKey fields k v) k' = lookupKey fields k' := by
  induction fields with
  | nil =>
    have hke : (k == k') = false := by
      simpa using fun he => h he.symm
    simp [setKey, lookupKey, hke]
  | cons hd tl ih =>
    cases hd with
    | mk k0 v0 =>
      by_cases h0 : (k0 == k) = true
      · have hk : k0 = k := by simpa using h0
        subst hk
        have hke : (k0 == k') = false := by
          simpa using fun he => h he.symm
        simp [setKey, lookupKey, hke]
      · simp [setKey, lookupKey, h0, ih]

theorem replaceFirstKey_append (pre post : List (String × JVal))
    (nid : String) (nd0 nd' : JVal)
    (h : ∀ p ∈ pre, p.1 ≠ nid) :
    replaceFirstKey (pre ++ (nid, nd0) :: post) nid nd' =
      pre ++ (nid, nd') :: post := by
  induction pre with
  | nil => simp [replaceFirstKey]
  | cons hd tl ih =>
    cases hd with
    | mk k0 v0 =>
      have hk0 : (k0 == nid) = false := by
        simpa using h (k0, v0) (List.mem_cons_self _ _)
      simp only [List.cons_append, replaceFirstKey, hk0]
      simp only [Bool.false_eq_true, if_false, List.cons.injEq, true_and]
      exact ih (fun p hp => h p (List.mem_cons_of_mem _ hp))

theorem find_node_by_title_append (title : String)
    (pre rest : List (String × JVal))
    (h : ∀ p ∈ pre, nodeTitleTest p.2 title = .ok false) :
    find_node_by_title title (pre ++ rest) = find_node_by_title title rest := by
  induction pre with
  | nil => simp
  | cons hd tl ih =>
    cases hd with
    | mk nid nd =>
      have hnd := h (nid, nd) (List.mem_cons_self _ _)
      simp only [List.cons_append, find_node_by_title]
      rw [hnd]
      exact ih (fun p hp => h p (List.mem_cons_of_mem _ hp))

theorem nodeTitleTest_of_metaSafe (nd : JVal) (title : String)
    (h : metaSafe nd = true) :
    nodeTitleTest nd title = .ok (hasTitle nd title) := by
  cases nd with
  | obj fields =>
    simp only [metaSafe] at h
    simp only [nodeTitleTest, hasTitle]
    cases hm : lookupKey fields "_meta" with
    | none => rfl
    | some meta =>
      rw [hm] at h
      cases meta with
      | obj m =>
        simp only [pyIn]
        cases ht : lookupKey m "title" with
        | none => simp [ht, getItem]
        | some tv => simp [ht, getItem]
      | null => simp at h
      | b xb => simp at h
      | i xi => simp at h
      | s xs => simp at h
      | arr xs => simp at h
  | null => rfl
  | b xb => rfl
  | i xi => rfl
  | s xs => rfl
  | arr xs => rfl

theorem find_node_by_title_none (title : String)
    (prompt : List (String × JVal))
    (hsafe : prompt.all (fun p => metaSafe p.2) = true)
    (hno : prompt.all (fun p => !hasTitle p.2 title) = true) :
    find_node_by_title title prompt = .ok none := by
  induction prompt with
  | nil => rfl
  | cons hd tl ih =>
    simp only [List.all_cons, Bool.and_eq_true] at hsafe hno
    cases hd with
    | mk nid nd =>
      simp only [find_node_by_title]
      rw [nodeTitleTest_of_metaSafe nd title hsafe.1]
      have : hasTitle nd title = false := by simpa using hno.1
      rw [this]
      exact ih hsafe.2 hno.2

theorem nodeTitleTest_true_truthy (fields : List (String × JVal))
    (title : String)
    (h : nodeTitleTest (JVal.obj fields) title = .ok true) :
    truthy (JVal.obj fields) = true := by
  cases fields with
  | nil => simp [nodeTitleTest, lookupKey] at h
  | cons hd tl => simp [truthy]

theorem find_output_node_id_none (prompt : List (String × JVal))
    (hno : prompt.all (fun p => !isOutputNode p.2) = true) :
    find_output_node_id prompt = none := by
  induction prompt with
  | nil => rfl
  | cons hd tl ih =>
    cases hd with
    | mk nid nd =>
      simp only [List.all_cons, Bool.and_eq_true] at hno
      cases nd with
      | obj fields =>
        simp only [find_output_node_id]
        cases hc : lookupKey fields "class_type" with
        | none => exact ih hno.2
        | some ct =>
          have hct : pyEqStr ct OUTPUT_NODE_WORKFLOW_TYPE = false := by
            have h1 := hno.1
            simpa [isOutputNode, hc] using h1
          simp only [hct, Bool.false_eq_true, if_false]
          exact ih hno.2
      | null => simp only [find_output_node_id]; exact ih hno.2
      | b xb => simp only [find_output_node_id]; exact ih hno.2
      | i xi => simp only [find_output_node_id]; exact ih hno.2
      | s xs => simp only [find_output_node_id]; exact ih hno.2
      | arr xs => simp only [find_output_node_id]; exact ih hno.2

/-! ## Claim theorems -/

/-- C5: for every original width/height pair, the LANDSCAPE selector yields
height = floor(H * 9/16) with the width unchanged, PORTRAIT yields
width = floor(W * 9/16) with the height unchanged, and SQUARE or any
unrecognized selector leaves both dimensions unchanged. -/
theorem C5_aspect_ratio :
    (∀ w h : Nat, apply_image_ratio "LANDSCAPE" w h = (w, h * 9 / 16)) ∧
    (∀ w h : Nat, apply_image_ratio "PORTRAIT" w h = (w * 9 / 16, h)) ∧
    (∀ (r : String) (w h : Nat), r ≠ "LANDSCAPE" → r ≠ "PORTRAIT" →
       apply_image_ratio r w h = (w, h)) := by
  refine ⟨fun w h => rfl, fun w h => rfl, fun r w h h1 h2 => ?_⟩
  unfold apply_image_ratio
  rw [if_neg h1, if_neg h2]

/-- C5 witness: the SQUARE selector leaves 512x512 unchanged. -/
theorem C5_aspect_ratio_witness :
    apply_image_ratio "SQUARE" 512 512 = (512, 512) :=
  C5_aspect_ratio.2.2 "SQUARE" 512 512 (by decide) (by decide)

/-- C7: `save_images` writes exactly one file per entry of the collected
mapping, containing only the first blob of the entry's sequence (later
blobs are discarded), and writes no files for the empty mapping. -/
theorem C7_save_images_first_blob :
    (∀ imgs, imagesNonEmpty imgs = true →
       save_images imgs = .ok (imgs.map (fun p => firstImage p.2))) ∧
    save_images [] = .ok [] :=
  ⟨fun imgs h => save_images_ok imgs h, rfl⟩

/-- C7 witness: with two blobs collected under one node id, only the first
is written. -/
theorem C7_save_images_first_blob_witness :
    save_images [(JVal.s "9", [[1], [2]])] = .ok [[1]] :=
  C7_save_images_first_blob.1 [(JVal.s "9", [[1], [2]])] rfl

/-- C9: every value of the mapping returned by `get_images` is a non-empty
sequence of blobs, so `save_images`' access to `image[0]` always succeeds
on a result of `get_images`. -/
theorem C9_images_nonempty (pid : String) (prompt : List (String × JVal))
    (frames : List Frame) (imgs : List (JVal × List (List Nat)))
    (h : get_images pid prompt frames = .ok (RunOut.finished imgs)) :
    imagesNonEmpty imgs = true ∧
    save_images imgs = .ok (imgs.map (fun p => firstImage p.2)) := by
  have hne : nonEmptyOut (RunOut.finished imgs) :=
    run_imagesNonEmpty pid (find_output_node_id prompt) frames initState
      (RunOut.finished imgs) rfl h
  exact ⟨hne, save_images_ok imgs hne⟩

/-- C9 witness: a run collecting one image yields a non-empty entry and a
successful save. -/
theorem C9_images_nonempty_witness :
    imagesNonEmpty [(JVal.s "9", [[8, 9]])] = true ∧
    save_images [(JVal.s "9", [[8, 9]])] = .ok [[8, 9]] :=
  C9_images_nonempty "p" exGraph
    [Frame.text exMsgSet, Frame.bin [0, 1, 2, 3, 4, 5, 6, 7, 8, 9],
     Frame.text exMsgBrk]
    [(JVal.s "9", [[8, 9]])] rfl

/-- C8: when the workflow graph has no `SaveImageWebsocket` node,
`find_output_node_id` returns `None`, every binary frame is silently
dropped, and `get_images` returns an empty mapping on every frame sequence
that ends in the matching null-node event. -/
theorem C8_no_output_node (pid : String) (prompt : List (String × JVal))
    (frames : List Frame) (r : RunOut)
    (hno : prompt.all (fun p => !isOutputNode p.2) = true)
    (h : get_images pid prompt frames = .ok r) :
    find_output_node_id prompt = none ∧ emptyOut r := by
  have hfind := find_output_node_id_none prompt hno
  refine ⟨hfind, ?_⟩
  have h' : run pid none frames initState = .ok r := by
    unfold get_images at h
    rw [hfind] at h
    exact h
  exact run_none_empty pid frames initState r rfl rfl h'

/-- C8 witness: a graph with only a sampler node collects nothing. -/
theorem C8_no_output_node_witness :
    find_output_node_id exGraphNoOutput = none ∧
    emptyOut (RunOut.finished []) :=
  C8_no_output_node "p" exGraphNoOutput [Frame.text exMsgBrk]
    (RunOut.finished []) rfl rfl

/-- C4: for every graph (conforming to the data model for `_meta`) that
contains no node with the requested title, `update_node_value` returns
`False`, prints only the not-found warning, and leaves the graph
completely unchanged. -/
theorem C4_patch_missing_title (prompt : List (String × JVal))
    (title : String) (value : JVal)
    (hsafe : prompt.all (fun p => metaSafe p.2) = true)
    (hno : prompt.all (fun p => !hasTitle p.2 title) = true) :
    update_node_value prompt title value =
      .ok (false, [LogMsg.warnNotFound title], prompt) := by
  unfold update_node_value
  rw [find_node_by_title_none title prompt hsafe hno]

/-- C4 witness: patching an untitled graph fails and leaves it unchanged. -/
theorem C4_patch_missing_title_witness :
    update_node_value exGraph "Seed" (JVal.i 5) =
      .ok (false, [LogMsg.warnNotFound "Seed"], exGraph) :=
  C4_patch_missing_title exGraph "Seed" (JVal.i 5) rfl rfl

/-- C10 counterexample: in `gShadowB` the node `"2"` has title `"Seed"`
and no `inputs` field, yet `update_node_value` does not take the failure
path: it returns `True` and patches the earlier node `"1"`. -/
theorem C10_counterexample :
    update_node_value gShadowB "Seed" (JVal.i 7) =
      .ok (true, [LogMsg.updated "Seed" "1" (JVal.i 7)],
        [("1", JVal.obj [("_meta", JVal.obj [("title", JVal.s "Seed")]),
           ("inputs", JVal.obj [("value", JVal.i 7)])]),
         ("2", seedNodeNoInputs)]) ∧
    ("2", seedNodeNoInputs) ∈ gShadowB ∧
    hasTitle seedNodeNoInputs "Seed" = true ∧
    lookupKey seedNodeNoInputsFields "inputs" = none :=
  ⟨rfl, List.mem_cons_of_mem _ (List.mem_cons_self _ _), rfl, rfl⟩

/-- C10 (amended): if the first node found by the title scan has no
`inputs` field, `update_node_value` returns `False`, prints only the
not-found warning, and leaves the graph unchanged — the title match alone
is not sufficient for a mutation. -/
theorem C10_first_match_without_inputs (prompt : List (String × JVal))
    (title : String) (nid : String) (fields : List (String × JVal))
    (value : JVal)
    (hfind : find_node_by_title title prompt =
      .ok (some (nid, JVal.obj fields)))
    (hnoinputs : lookupKey fields "inputs" = none) :
    update_node_value prompt title value =
      .ok (false, [LogMsg.warnNotFound title], prompt) := by
  unfold update_node_value
  rw [hfind]
  by_cases ht : truthy (JVal.obj fields) = true
  · simp [ht, pyIn, hnoinputs]
  · have htf : truthy (JVal.obj fields) = false := by simpa using ht
    simp [htf]

/-- C10 witness: a lone titled node without `inputs` is not patched. -/
theorem C10_first_match_without_inputs_witness :
    update_node_value [("1", seedNodeNoInputs)] "Seed" (JVal.i 3) =
      .ok (false, [LogMsg.warnNotFound "Seed"], [("1", seedNodeNoInputs)]) :=
  C10_first_match_without_inputs [("1", seedNodeNoInputs)] "Seed" "1"
    seedNodeNoInputsFields (JVal.i 3) rfl rfl

/-- C3 counterexample: in `gShadowA` the node `"2"` has title `"Seed"` and
an `inputs` mapping, yet patching with value 42 returns `False` and leaves
the whole graph (including that node) unchanged, because the scan finds
the earlier inputs-less `"Seed"` node `"1"` first. -/
theorem C3_counterexample :
    update_node_value gShadowA "Seed" (JVal.i 42) =
      .ok (false, [LogMsg.warnNotFound "Seed"], gShadowA) ∧
    ("2", seedNodeEmptyInputs) ∈ gShadowA ∧
    hasTitle seedNodeEmptyInputs "Seed" = true ∧
    lookupKey seedNodeEmptyInputsFields "inputs" = some (JVal.obj []) :=
  ⟨rfl, List.mem_cons_of_mem _ (List.mem_cons_self _ _), rfl, rfl⟩

/-- C3 (amended): patching locates the first node in iteration order whose
`_meta.title` equals `"Seed"`; when that node has an `inputs` mapping, its
`inputs.value` is set to the given value and `True` is returned, while
every other node of the graph, every other field of the patched node and
every other key of its `inputs` mapping are unchanged. -/
theorem C3_patch_first_seed (pre post : List (String × JVal)) (nid : String)
    (fields iv : List (String × JVal)) (value : JVal)
    (hpre : ∀ p ∈ pre, nodeTitleTest p.2 "Seed" = .ok false)
    (hpreid : ∀ p ∈ pre, p.1 ≠ nid)
    (htitle : nodeTitleTest (JVal.obj fields) "Seed" = .ok true)
    (hinputs : lookupKey fields "inputs" = some (JVal.obj iv)) :
    update_node_value (pre ++ (nid, JVal.obj fields) :: post) "Seed" value =
      .ok (true, [LogMsg.updated "Seed" nid value],
        pre ++ (nid, JVal.obj (setKey fields "inputs"
          (JVal.obj (setKey iv "value" value)))) :: post) ∧
    lookupKey (setKey iv "value" value) "value" = some value ∧
    (∀ k, k ≠ "value" →
       lookupKey (setKey iv "value" value) k = lookupKey iv k) ∧
    (∀ k, k ≠ "inputs" →
       lookupKey (setKey fields "inputs"
         (JVal.obj (setKey iv "value" value))) k = lookupKey fields k) := by
  refine ⟨?_, setKey_lookup_self iv "value" value,
    fun k hk => setKey_lookup_other iv "value" value k hk,
    fun k hk => setKey_lookup_other fields "inputs" _ k hk⟩
  have hfind : find_node_by_title "Seed" (pre ++ (nid, JVal.obj fields) :: post)
      = .ok (some (nid, JVal.obj fields)) := by
    rw [find_node_by_title_append "Seed" pre _ hpre]
    simp only [find_node_by_title, htitle]
  unfold update_node_value
  rw [hfind]
  simp only [nodeTitleTest_true_truthy fields "Seed" htitle, if_true, pyIn,
    hinputs, Option.isSome_some]
  rw [replaceFirstKey_append pre post nid (JVal.obj fields) _ hpreid]

/-- C3 witness: a single `"Seed"` node with an `inputs.value` of 0 is
patched to 42. -/
theorem C3_patch_first_seed_witness :
    update_node_value [("1", JVal.obj seedFields)] "Seed" (JVal.i 42) =
      .ok (true, [LogMsg.updated "Seed" "1" (JVal.i 42)],
        [("1", JVal.obj (setKey seedFields "inputs"
          (JVal.obj (setKey [("value", JVal.i 0)] "value" (JVal.i 42)))))]) ∧
    lookupKey (setKey [("value", JVal.i 0)] "value" (JVal.i 42)) "value" =
      some (JVal.i 42) := by
  have h := C3_patch_first_seed [] [] "1" seedFields [("value", JVal.i 0)]
    (JVal.i 42) (fun p hp => absurd hp (List.not_mem_nil p))
    (fun p hp => absurd hp (List.not_mem_nil p)) rfl rfl
  exact ⟨h.1, h.2.1⟩

/-- C2: the read loop terminates (returning the collected mapping) exactly
at a text frame whose decoded JSON is an `executing` event of the matching
job with a null node field: such a frame breaks the loop immediately and is
characterized by its message shape; an `executing` event carrying a
different `prompt_id` neither terminates the loop nor changes the state;
and every normal termination of the loop decomposes as a prefix run
reaching a pending state followed by exactly such a null-node event. -/
theorem C2_loop_termination :
    (∀ (pid : String) (oid : Option String) (st : LoopState) (m : JVal)
       (rest : List Frame),
       textStep pid m = .ok TextAction.brk →
       run pid oid (Frame.text m :: rest) st =
         .ok (RunOut.finished st.output_images)) ∧
    (∀ (pid : String) (m : JVal),
       textStep pid m = .ok TextAction.brk ↔
       ∃ (fields dfields : List (String × JVal)) (ty q : JVal),
         m = JVal.obj fields ∧
         lookupKey fields "type" = some ty ∧
         pyEqStr ty "executing" = true ∧
         lookupKey fields "data" = some (JVal.obj dfields) ∧
         lookupKey dfields "prompt_id" = some q ∧
         pyEqStr q pid = true ∧
         lookupKey dfields "node" = some JVal.null) ∧
    (∀ (pid : String) (oid : Option String) (st : LoopState)
       (fields dfields : List (String × JVal)) (ty q : JVal)
       (rest : List Frame),
       lookupKey fields "type" = some ty → pyEqStr ty "executing" = true →
       lookupKey fields "data" = some (JVal.obj dfields) →
       lookupKey dfields "prompt_id" = some q → pyEqStr q pid = false →
       run pid oid (Frame.text (JVal.obj fields) :: rest) st =
         run pid oid rest st) ∧
    (∀ (pid : String) (oid : Option String) (fs : List Frame)
       (st : LoopState) (imgs : List (JVal × List (List Nat))),
       run pid oid fs st = .ok (RunOut.finished imgs) →
       ∃ gs m hs st', fs = gs ++ Frame.text m :: hs ∧
         run pid oid gs st = .ok (RunOut.pending st') ∧
         textStep pid m = .ok TextAction.brk ∧
         imgs = st'.output_images) := by
  refine ⟨?_, ?_, ?_, ?_⟩
  · intro pid oid st m rest h
    simp [run, h]
  · intro pid m
    constructor
    · intro h
      unfold textStep at h
      cases hty : getItem m "type" with
      | error e =>
        simp only [hty] at h
        exact absurd h (by simp)
      | ok ty =>
        simp only [hty] at h
        by_cases hex : pyEqStr ty "executing" = true
        · simp only [hex, eq_self_iff_true, if_true] at h
          cases hdata : getItem m "data" with
          | error e =>
            simp only [hdata] at h
            exact absurd h (by simp)
          | ok data =>
            simp only [hdata] at h
            cases hpid : getItem data "prompt_id" with
            | error e =>
              simp only [hpid] at h
              exact absurd h (by simp)
            | ok q =>
              simp only [hpid] at h
              by_cases hq : pyEqStr q pid = true
              · simp only [hq, eq_self_iff_true, if_true] at h
                cases hnode : getItem data "node" with
                | error e =>
                  simp only [hnode] at h
                  exact absurd h (by simp)
                | ok node =>
                  simp only [hnode] at h
                  by_cases hn : isNull node = true
                  · rcases (getItem_ok m "type" ty).mp hty with
                      ⟨fields, rfl, hl1⟩
                    rcases (getItem_ok _ "data" data).mp hdata with
                      ⟨fields2, hf2, hl2⟩
                    injection hf2 with hf2e
                    subst hf2e
                    rcases (getItem_ok data "prompt_id" q).mp hpid with
                      ⟨dfields, rfl, hl3⟩
                    rcases (getItem_ok _ "node" node).mp hnode with
                      ⟨dfields2, hf3, hl4⟩
                    injection hf3 with hf3e
                    subst hf3e
                    have hnn : node = JVal.null := (isNull_iff node).mp hn
                    subst hnn
                    exact ⟨fields, dfields, ty, q, rfl, hl1, hex, hl2,
                      hl3, hq, hl4⟩
                  · have hnf : isNull node = false := by simpa using hn
                    simp only [hnf, Bool.false_eq_true, if_false] at h
                    exact absurd h (by simp)
              · have hqf : pyEqStr q pid = false := by simpa using hq
                simp only [hqf, Bool.false_eq_true, if_false] at h
                exact absurd h (by simp)
        · have hexf : pyEqStr ty "executing" = false := by simpa using hex
          simp only [hexf, Bool.false_eq_true, if_false] at h
          exact absurd h (by simp)
    · rintro ⟨fields, dfields, ty, q, rfl, h1, h2, h3, h4, h5, h6⟩
      simp [textStep, getItem, h1, h2, h3, h4, h5, h6, isNull]
  · intro pid oid st fields dfields ty q rest h1 h2 h3 h4 h5
    have hskip : textStep pid (JVal.obj fields) = .ok TextAction.skip := by
      simp [textStep, getItem, h1, h2, h3, h4, h5]
    simp [run, hskip]
  · intro pid oid fs
    induction fs with
    | nil =>
      intro st imgs h
      simp [run] at h
    | cons f rest ih =>
      intro st imgs h
      cases f with
      | text m =>
        simp only [run] at h
        cases ht : textStep pid m with
        | error e =>
          simp only [ht] at h
          exact absurd h (by simp)
        | ok a =>
          simp only [ht] at h
          cases a with
          | brk =>
            simp only [Except.ok.injEq, RunOut.finished.injEq] at h
            exact ⟨[], m, rest, st, rfl, rfl, ht, h.symm⟩
          | setNode n =>
            rcases ih { st with current_node := n } imgs h with
              ⟨gs, m', hs, st', hfs, hrun, hbrk, himgs⟩
            exact ⟨Frame.text m :: gs, m', hs, st', by rw [hfs]; rfl,
              by simp [run, ht, hrun], hbrk, himgs⟩
          | skip =>
            rcases ih st imgs h with
              ⟨gs, m', hs, st', hfs, hrun, hbrk, himgs⟩
            exact ⟨Frame.text m :: gs, m', hs, st', by rw [hfs]; rfl,
              by simp [run, ht, hrun], hbrk, himgs⟩
      | bin payload =>
        simp only [run] at h
        by_cases hc : pyEqOpt st.current_node oid = true
        · rw [if_pos hc] at h
          rcases ih _ imgs h with ⟨gs, m', hs, st', hfs, hrun, hbrk, himgs⟩
          exact ⟨Frame.bin payload :: gs, m', hs, st', by rw [hfs]; rfl,
            by simp [run, hc, hrun], hbrk, himgs⟩
        · rw [if_neg hc] at h
          rcases ih st imgs h with ⟨gs, m', hs, st', hfs, hrun, hbrk, himgs⟩
          exact ⟨Frame.bin payload :: gs, m', hs, st', by rw [hfs]; rfl,
            by simp [run, hc, hrun], hbrk, himgs⟩

/-- C2 witness: the null-node event of the matching job ends the loop at
once, returning the (empty) collection. -/
theorem C2_loop_termination_witness :
    run "p" none [Frame.text exMsgBrk] initState = .ok (RunOut.finished []) :=
  C2_loop_termination.1 "p" none initState exMsgBrk [] rfl

/-- C1 counterexample: when the `SaveImageWebsocket` node's id is the
empty string, the resolved output id collides with the loop's initial
`current_node = ""` sentinel, and a binary frame arriving in the initial
state — before any text event has set a node (`lastSetNode` of the empty
prefix is `none`) — is retained and changes the collection, contradicting
the claim's initial-state discard and its append-iff-last-set-node
equivalence. -/
theorem C1_empty_id_counterexample :
    find_output_node_id gEmptyId = some "" ∧
    lastSetNode "p" [] = none ∧
    get_images "p" gEmptyId [Frame.bin [0, 1, 2, 3, 4, 5, 6, 7, 8, 9]] =
      .ok (RunOut.pending
        { current_node := JVal.s "",
          output_images := [(JVal.s "", [[8, 9]])] }) :=
  ⟨rfl, rfl, rfl⟩

/-- C1 (amended): after any prefix of frames processed without
termination, a binary frame is appended to the collection exactly when
the current node equals the resolved output node id; provided the output
node id is not the empty string (the loop's initial sentinel), the
current node equals the output id exactly when the node most recently set
by a matching-job text event equals it, and in every other case —
including the initial state, before any matching text event — the frame
is discarded and the collection is left unchanged. -/
theorem C1_binary_filter (pid : String) (oid : Option String)
    (fs : List Frame) (payload : List Nat) (st : LoopState)
    (h : run pid oid fs initState = .ok (RunOut.pending st))
    (hne : oid ≠ some "") :
    run pid oid (fs ++ [Frame.bin payload]) initState =
      .ok (RunOut.pending
        { current_node := st.current_node,
          output_images :=
            if pyEqOpt st.current_node oid then
              dictAppend st.output_images st.current_node (payload.drop 8)
            else st.output_images }) ∧
    (pyEqOpt st.current_node oid = true ↔
      ∃ n, lastSetNode pid fs = some n ∧ pyEqOpt n oid = true) := by
  constructor
  · rw [run_append_pending pid oid fs [Frame.bin payload] initState st h]
    by_cases hc : pyEqOpt st.current_node oid = true
    · simp only [run, hc, eq_self_iff_true, if_true]
    · have hcf : pyEqOpt st.current_node oid = false := by simpa using hc
      simp only [run, hcf, Bool.false_eq_true, if_false]
  · have hcur := run_pending_current pid oid fs initState st h
    cases hl : lastSetNode pid fs with
    | none =>
      rw [hl, Option.getD_none] at hcur
      constructor
      · intro hc
        exfalso
        rw [hcur] at hc
        cases oid with
        | none => simp [pyEqOpt, isNull, initState] at hc
        | some t =>
          simp [pyEqOpt, pyEqStr, initState] at hc
          exact hne (by simp [hc])
      · rintro ⟨n, hn, _⟩
        cases hn
    | some n0 =>
      rw [hl, Option.getD_some] at hcur
      constructor
      · intro hc
        exact ⟨n0, rfl, by rwa [hcur] at hc⟩
      · rintro ⟨n, hn, hpe⟩
        injection hn with hn'
        rw [hcur, hn']
        exact hpe

/-- C1 witness: after a matching text event activates node `"9"`, a binary
frame is retained and its payload (minus 8 bytes) collected under `"9"`. -/
theorem C1_binary_filter_witness :
    run "p" (some "9") ([Frame.text exMsgSet] ++ [Frame.bin [0, 1, 2, 3, 4, 5, 6, 7, 8, 9]])
      initState =
      .ok (RunOut.pending
        { current_node := JVal.s "9",
          output_images := [(JVal.s "9", [[8, 9]])] }) :=
  (C1_binary_filter "p" (some "9") [Frame.text exMsgSet]
    [0, 1, 2, 3, 4, 5, 6, 7, 8, 9]
    { current_node := JVal.s "9", output_images := [] } rfl (by decide)).1

/-- C6: a binary frame retained by the read loop contributes exactly its
payload with the first 8 bytes stripped, appended unmodified as one
complete blob to the sequence collected for the current node id. -/
theorem C6_eight_byte_prefix (pid : String) (oid : Option String)
    (st : LoopState) (pre post : List Nat) (rest : List Frame)
    (h8 : pre.length = 8)
    (hmatch : pyEqOpt st.current_node oid = true) :
    run pid oid (Frame.bin (pre ++ post) :: rest) st =
      run pid oid rest
        { st with output_images :=
            dictAppend st.output_images st.current_node post } ∧
    lookupImg (dictAppend st.output_images st.current_node post)
        st.current_node =
      some ((lookupImg st.output_images st.current_node).getD [] ++ [post]) := by
  have hdrop : (pre ++ post).drop 8 = post := by
    rw [← h8]
    exact List.drop_left pre post
  constructor
  · simp only [run, hmatch, eq_self_iff_true, if_true, hdrop]
  · exact dictAppend_lookup st.output_images st.current_node post
      (jEqAtom_refl_of_pyEqOpt st.current_node oid hmatch)

/-- C6 witness: a ten-byte frame under the active output node contributes
its last two bytes as the collected blob. -/
theorem C6_eight_byte_prefix_witness :
    run "p" (some "9") [Frame.bin ([0, 1, 2, 3, 4, 5, 6, 7] ++ [8, 9])]
      { current_node := JVal.s "9", output_images := [] } =
      run "p" (some "9") []
        { current_node := JVal.s "9",
          output_images := dictAppend [] (JVal.s "9") [8, 9] } ∧
    lookupImg (dictAppend [] (JVal.s "9") [8, 9]) (JVal.s "9") =
      some [[8, 9]] :=
  C6_eight_byte_prefix "p" (some "9")
    { current_node := JVal.s "9", output_images := [] }
    [0, 1, 2, 3, 4, 5, 6, 7] [8, 9] [] rfl rfl

end Comfy
